import Mathlib

/-!
Verification of the file-ai indexing and hybrid-retrieval application.

Strings from the TypeScript sources are modelled as `List Char`: a
JavaScript string is its sequence of code points, and every operation the
code uses (trim, toLowerCase, indexOf, substring) is given an explicit
executable definition over that sequence. React `useState` cells are
modelled as fields of explicit state records, and an event handler is a
function from the pre-state (plus the event and the outcome of the one
backend invocation it performs) to the post-state; the boolean component
of a handler's result records whether the backend command was invoked.
The Rust backend (rule engine, content extractor, search fusion) is not
part of the frontend sources; those components are modelled from the
specification, as marked on each definition.
-/

namespace FileAI

/-! ## Text primitives -/

/-- The whitespace characters removed by JavaScript `String.prototype.trim`
(the common ASCII subset; the code only ever trims user-typed input). -/
def isJsWhitespace (c : Char) : Bool :=
  c = ' ' || c = '\t' || c = '\n' || c = '\r' || c = '\x0b' || c = '\x0c'

/-- JavaScript `s.trim()`: drop whitespace from both ends. -/
def jsTrim (s : List Char) : List Char :=
  ((s.dropWhile isJsWhitespace).reverse.dropWhile isJsWhitespace).reverse

/-- JavaScript `s.toLowerCase()`, per code point. -/
def jsToLower (s : List Char) : List Char :=
  s.map Char.toLower

/-- JavaScript `hay.indexOf(needle)`: index of the first occurrence of
`needle` in `hay`, `none` when absent. -/
def indexOf (needle : List Char) : List Char → Option Nat
  | [] => if needle.isPrefixOf ([] : List Char) then some 0 else none
  | c :: t =>
    if needle.isPrefixOf (c :: t) then some 0
    else (indexOf needle t).map (fun n => n + 1)

/-- JavaScript `s.substring(a, b)` for `a ≤ b`: the code points from
position `a` (inclusive) to `b` (exclusive). -/
def jsSubstring (s : List Char) (a b : Nat) : List Char :=
  (s.drop a).take (b - a)

/-- The literal `"..."` appended around snippets. -/
def dots : List Char := ['.', '.', '.']

/-- A value caught by a JavaScript `catch`: either an `Error` object
carrying a message, or any other thrown value. -/
inductive JsError where
  | errorObj (message : List Char)
  | nonError
deriving DecidableEq

/-- The fallback message `'Search failed'` used by `useSearch`. -/
def searchFailedMsg : List Char :=
  ['S', 'e', 'a', 'r', 'c', 'h', ' ', 'f', 'a', 'i', 'l', 'e', 'd']

/-- `err instanceof Error ? err.message : 'Search failed'` from
`useSearch.search`. -/
def jsErrorMessage : JsError → List Char
  | .errorObj m => m
  | .nonError => searchFailedMsg

/-- `err?.toString()` as used by the other handlers; a non-`Error` value
stringifies to some text, modelled as the fallback message. -/
def jsErrorToString : JsError → List Char
  | .errorObj m => m
  | .nonError => searchFailedMsg

/-! ## `useSearch` (src/src/hooks/useSearch.ts) -/

/-- `generateSnippet` from `src/src/hooks/useSearch.ts` (lines 87-105):
a window of `content` around the first case-insensitive occurrence of
`query`, or the first 100 characters when the query does not occur. -/
def generateSnippet (content query : List Char) : List Char :=
  if content.isEmpty || query.isEmpty then []
  else
    let lowerContent := jsToLower content
    let lowerQuery := jsToLower query
    match indexOf lowerQuery lowerContent with
    | none =>
      jsSubstring content 0 100 ++ (if 100 < content.length then dots else [])
    | some i =>
      let start := i - 50
      let stop := min content.length (i + query.length + 50)
      let snippet := jsSubstring content start stop
      (if 0 < start then dots else []) ++ snippet ++
        (if stop < content.length then dots else [])

/-- The `match_type` field of the Rust `SearchResult` struct: the strings
`'Vector'` and `'Text'`, or the object variant `{ Hybrid: [v, t] }`. -/
inductive MatchType where
  | vector
  | text
  | hybrid (vectorScore textScore : ℚ)
deriving DecidableEq

/-- `BackendSearchResult` from `useSearch.ts` (lines 5-13). -/
structure BackendSearchResult where
  id : List Char
  result_type : List Char
  title : List Char
  path : List Char
  relevance_score : ℚ
  match_type : MatchType
  snippet : Option (List Char)
deriving DecidableEq

/-- The frontend `SearchResult` from `useSearch.ts` (lines 16-24); the
`type` field holds one of the strings `'file'`, `'folder'`, `'content'`. -/
structure FrontendSearchResult where
  id : List Char
  result_type : List Char
  title : List Char
  path : List Char
  relevance_score : ℚ
  type : List Char
  snippet : List Char
deriving DecidableEq

def vectorStr : List Char := ['v', 'e', 'c', 't', 'o', 'r']

def textStr : List Char := ['t', 'e', 'x', 't']

def hybridStr : List Char := ['h', 'y', 'b', 'r', 'i', 'd']

def fileStr : List Char := ['f', 'i', 'l', 'e']

def folderStr : List Char := ['f', 'o', 'l', 'd', 'e', 'r']

def contentStr : List Char := ['c', 'o', 'n', 't', 'e', 'n', 't']

/-- `useSearch.ts` lines 50-55: the lowercased string form of the match
type (`'Vector'.toLowerCase()`, `'Text'.toLowerCase()`, or `'hybrid'` for
the `Hybrid` object; the declared backend union has no other value, so the
`'text'` default is reached only by the `Text` case). -/
def matchTypeStr : MatchType → List Char
  | .vector => vectorStr
  | .text => textStr
  | .hybrid _ _ => hybridStr

/-- `useSearch.ts` lines 57-63: map the backend `result_type` onto the
frontend `type` union, defaulting to `'file'`. -/
def resultTypeToType (rt : List Char) : List Char :=
  if rt = folderStr then folderStr
  else if rt = contentStr then contentStr
  else fileStr

/-- `result.snippet || generateSnippet(result.title, query)` from
`useSearch.ts` line 70: `||` falls through on `undefined` and on the
empty string. -/
def snippetOrFallback (snip : Option (List Char)) (title query : List Char) :
    List Char :=
  match snip with
  | some s => if s.isEmpty then generateSnippet title query else s
  | none => generateSnippet title query

/-- The per-result transformation from `useSearch.ts` lines 48-74. -/
def transformResult (query : List Char) (r : BackendSearchResult) :
    FrontendSearchResult :=
  { id := r.id
    result_type := matchTypeStr r.match_type
    title := r.title
    path := r.path
    relevance_score := r.relevance_score
    type := resultTypeToType r.result_type
    snippet := snippetOrFallback r.snippet r.title query }

/-- The `results` and `error` state cells of `useSearch`. -/
structure SearchState where
  results : List FrontendSearchResult
  error : Option (List Char)
deriving DecidableEq

/-- `useSearch.search` (lines 31-84): given the query, the pre-state and
the outcome of the `'search_indexed_files'` invocation, return whether the
backend was invoked and the post-state. A query that trims to empty sets
`results` to `[]` and returns before any invocation (leaving `error`
untouched); otherwise `error` is cleared, then either the transformed
results are stored, or the caught rejection sets `error` and empties
`results`. -/
def search (query : List Char) (s : SearchState)
    (backend : Except JsError (List BackendSearchResult)) :
    Bool × SearchState :=
  if (jsTrim query).isEmpty then
    (false, { s with results := [] })
  else
    match backend with
    | .ok rs => (true, { results := rs.map (transformResult query), error := none })
    | .error e => (true, { results := [], error := some (jsErrorMessage e) })

/-! ## `Search` component (src/src/components/Search.tsx) -/

/-- The `results` and `error` state cells of the `Search` component;
results are `[path, score]` pairs. -/
structure HandleSearchState where
  results : List (List Char × ℚ)
  error : Option (List Char)
deriving DecidableEq

/-- `handleSearch` from `Search.tsx` (lines 14-29): the guard is
`if (!query) return;`, so only the exactly-empty query skips the
`'search_files'` invocation. On success the matches are stored and the
error cleared; on rejection the error is set and `results` is left as it
was. -/
def handleSearch (query : List Char) (s : HandleSearchState)
    (backend : Except JsError (List (List Char × ℚ))) :
    Bool × HandleSearchState :=
  if query.isEmpty then
    (false, s)
  else
    match backend with
    | .ok ms => (true, { results := ms, error := none })
    | .error e => (true, { s with error := some (jsErrorToString e) })

/-! ## `ScanButton` component (src/src/components/ScanButton.tsx) -/

/-- The `ScanProgress` payload (`ScanButton.tsx` lines 21-26). -/
structure ScanProgress where
  current : Nat
  total : Nat
  current_file : List Char
  stage : List Char
deriving DecidableEq

/-- The stage string `'complete'`. -/
def completeStage : List Char := ['c', 'o', 'm', 'p', 'l', 'e', 't', 'e']

/-- JavaScript `Math.round`: round half up. -/
def jsRound (q : ℚ) : ℤ := Int.floor (q + 1 / 2)

/-- The percentage shown next to the progress bar (`ScanButton.tsx`
line 164): `progress.total > 0 ? Math.round((current / total) * 100) : 0`. -/
def displayPercent (p : ScanProgress) : ℤ :=
  if 0 < p.total then jsRound (((p.current : ℚ) / (p.total : ℚ)) * 100) else 0

/-- The state cells of the `FileScanner` component (`ScanButton.tsx`
lines 39-47). -/
structure ScanUIState where
  files : List (List Char)
  loading : Bool
  indexing : Bool
  error : Option (List Char)
  progress : Option ScanProgress
deriving DecidableEq

/-- The `scan_progress` listener (`ScanButton.tsx` lines 80-92): every
event is stored in `progress`; when the stage is `'complete'` the
progress is then reset and `indexing` cleared (the 2-second display delay
before the reset is collapsed into the resulting state). -/
def onProgress (s : ScanUIState) (p : ScanProgress) : ScanUIState :=
  if p.stage = completeStage then
    { s with progress := none, indexing := false }
  else
    { s with progress := some p }

/-- `handleIndex` (`ScanButton.tsx` lines 112-132): `indexing` is set and
`error`/`progress` reset, then `'scan_and_store_files_with_progress'` is
invoked; a rejection sets the error and clears `indexing` and `progress`,
while a successful invocation leaves `indexing` set (it is cleared only by
the `'complete'` progress event). -/
def handleIndexResult (s : ScanUIState) (res : Except JsError Nat) :
    ScanUIState :=
  let started := { s with indexing := true, error := none, progress := none }
  match res with
  | .ok _ => started
  | .error e =>
    { started with
        error := some (jsErrorToString e), indexing := false, progress := none }

/-! ## `Settings` rule editor (src/src/pages/Settings.tsx) -/

/-- Outcome of one `addRule` call: whether the backend add command was
invoked, the rule list for the edited key, and the input field's text. -/
structure AddRuleOutcome where
  invoked : Bool
  rules : List (List Char)
  input : List Char
deriving DecidableEq

/-- `value.replace(/^\./, "")` from `Settings.tsx` line 186: remove one
leading dot if present. -/
def stripLeadingDot (s : List Char) : List Char :=
  match s with
  | [] => []
  | c :: rest => if c = '.' then rest else c :: rest

/-- `addRule` from `Settings.tsx` (lines 179-202), restricted to the rule
list being edited: trim the input and do nothing when it is empty;
otherwise clean the value (extensions lose one leading dot), invoke the
backend add command, and only on its success append the cleaned value and
clear the input — the `catch` branch only logs, leaving the local state
unchanged. -/
def addRule (isExtensionRule : Bool) (rules : List (List Char))
    (input : List Char) (backendOk : Bool) : AddRuleOutcome :=
  let value := jsTrim input
  if value.isEmpty then
    ⟨false, rules, input⟩
  else
    let cleanValue := if isExtensionRule then stripLeadingDot value else value
    if backendOk then ⟨true, rules ++ [cleanValue], []⟩
    else ⟨true, rules, input⟩

/-! ## `useGlobalShortcut` (src/src/types/index.ts, second part) -/

/-- The configuration of `useGlobalShortcut` (with its defaults applied:
absent modifiers are `false`, `enabled` defaults to `true`). -/
structure ShortcutConfig where
  key : List Char
  ctrlKey : Bool
  shiftKey : Bool
  altKey : Bool
  enabled : Bool
deriving DecidableEq

/-- The fields of a DOM keydown event that `handleKeyDown` reads. -/
structure KeyEvent where
  key : List Char
  ctrlKey : Bool
  shiftKey : Bool
  altKey : Bool
deriving DecidableEq

/-- `handleKeyDown` from `useGlobalShortcut`: the callback fires iff the
listener is attached (`enabled`), the key matches case-insensitively, and
each modifier's state equals the configured boolean
(`ctrlKey ? event.ctrlKey : !event.ctrlKey`, and likewise for shift and
alt). -/
def shortcutFires (cfg : ShortcutConfig) (ev : KeyEvent) : Bool :=
  cfg.enabled &&
    (jsToLower ev.key == jsToLower cfg.key) &&
    (if cfg.ctrlKey then ev.ctrlKey else !ev.ctrlKey) &&
    (if cfg.shiftKey then ev.shiftKey else !ev.shiftKey) &&
    (if cfg.altKey then ev.altKey else !ev.altKey)

/-! ## Rule Engine (modelled from the spec) -/

/-- A path segment (folder or file name). -/
abbrev Segment := List Char

/-- An absolute path, as its list of segments. -/
abbrev FsPath := List Segment

/-- `ScanDecision` (spec section 3). -/
inductive ScanDecision where
  | skip
  | metadataOnly
  | fullContent
deriving DecidableEq

/-- `ScanPhase` (spec sections 4.2 and 9). -/
inductive ScanPhase where
  | phase1
  | phase2
deriving DecidableEq

/-- `ScanRuleSet` (spec section 3): the six configured rule sets. -/
structure ScanRuleSet where
  includedPaths : List FsPath
  excludedPaths : List FsPath
  includedFolders : List Segment
  excludedFolders : List Segment
  includedExtensions : List Segment
  excludedExtensions : List Segment
  excludedFilenames : List Segment
deriving DecidableEq

/-- A path is under a root iff the root's segments lead the path's. -/
def underAny (roots : List FsPath) (path : FsPath) : Bool :=
  roots.any (fun r => List.isPrefixOf r path)

/-- The file's name: the last path segment. -/
def fileName (path : FsPath) : Segment :=
  (path.getLast?).getD []

/-- Folder-name rules match any path segment, not just the leaf
(spec section 3). -/
def inExcludedFolder (rs : ScanRuleSet) (path : FsPath) : Bool :=
  path.any (fun seg => rs.excludedFolders.contains seg)

/-- Default system/hidden directories skipped by phase 2: dot-directories
(spec section 4.2, step 5). -/
def isHiddenOrSystem (path : FsPath) : Bool :=
  path.any (fun seg => seg.head? = some '.')

/-- Modelled from the spec: the Rule Engine contract
`decide(path, category, scanPhase, ruleSet) -> ScanDecision` of section
4.2 (the Rust implementation, `check_phase1_rules` and the phase-2
scanner, is not under src/). The five rules are applied in order, first
match wins. -/
def decideFile (path : FsPath) (ext : Segment) (phase : ScanPhase)
    (rs : ScanRuleSet) : ScanDecision :=
  if rs.excludedFilenames.contains (fileName path) then .skip
  else if inExcludedFolder rs path || underAny rs.excludedPaths path then
    (if underAny rs.includedPaths path then .metadataOnly else .skip)
  else if rs.excludedExtensions.contains ext then .skip
  else
    match phase with
    | .phase1 =>
      if underAny rs.includedPaths path &&
          (rs.includedExtensions.isEmpty || rs.includedExtensions.contains ext)
      then .fullContent
      else .skip
    | .phase2 =>
      if isHiddenOrSystem path then .skip else .metadataOnly

/-! ## Hybrid search fusion (modelled from the spec) -/

/-- The score a candidate list assigns to a file id, when present. -/
def lookupScore (results : List (Nat × ℚ)) (id : Nat) : Option ℚ :=
  (results.find? (fun r => r.1 == id)).map (fun r => r.2)

/-- Modelled from the spec: the fusion step of the Hybrid Search Engine
(section 4.7, step 3). A file in both candidate lists gets a combined
score, a file in one list keeps that list's score. The exact formula is
left open by the spec (section 9, weighted sum named as an example) but
must rank a file appearing in both lists at least as high as either
individual signal would alone, for every admissible score — the vector
signal is cosine similarity and may be negative — so the combined score
is the sum of the two signal scores floored at the better individual
score. -/
def fuseScore (vectorResults textResults : List (Nat × ℚ)) (id : Nat) :
    Option ℚ :=
  match lookupScore vectorResults id, lookupScore textResults id with
  | some v, some t => some (max (v + t) (max v t))
  | some v, none => some v
  | none, some t => some t
  | none, none => none

/-! ## Content Extractor (modelled from the spec) -/

/-- `Category` (spec section 2). -/
inductive FileCategory where
  | code
  | document
  | spreadsheet
  | database
  | media
  | config
  | binary
  | archive
  | unknown
deriving DecidableEq

/-- The category's display name, used in synthesized metadata. -/
def categoryName : FileCategory → List Char
  | .code => ['c', 'o', 'd', 'e']
  | .document => ['d', 'o', 'c', 'u', 'm', 'e', 'n', 't']
  | .spreadsheet => ['s', 'h', 'e', 'e', 't']
  | .database => ['d', 'a', 't', 'a', 'b', 'a', 's', 'e']
  | .media => ['m', 'e', 'd', 'i', 'a']
  | .config => ['c', 'o', 'n', 'f', 'i', 'g']
  | .binary => ['b', 'i', 'n', 'a', 'r', 'y']
  | .archive => ['a', 'r', 'c', 'h', 'i', 'v', 'e']
  | .unknown => ['u', 'n', 'k', 'n', 'o', 'w', 'n']

/-- The extractor's result: the text payload and whether it reflects
actual file content (spec glossary, content-processed). -/
structure ExtractedText where
  text : List Char
  contentProcessed : Bool
deriving DecidableEq

/-- The extractor's failure taxonomy (spec section 7). -/
inductive ExtractError where
  | fileUnreadable
  | decodeError
deriving DecidableEq

/-- Truncation at `maxChars`: keep the first `maxChars` characters (a cut
between whole characters, never inside one). -/
def truncateChars (maxChars : Nat) (text : List Char) : List Char :=
  text.take maxChars

/-- The UTF-8 encoding of one code point. -/
def charUtf8 (c : Char) : List Nat :=
  let n := c.toNat
  if n < 128 then [n]
  else if n < 2048 then [192 + n / 64, 128 + n % 64]
  else if n < 65536 then [224 + n / 4096, 128 + n / 64 % 64, 128 + n % 64]
  else [240 + n / 262144, 128 + n / 4096 % 64, 128 + n / 64 % 64, 128 + n % 64]

/-- The UTF-8 byte sequence of a text. -/
def utf8Bytes (text : List Char) : List Nat :=
  (text.map charUtf8).flatten

/-- Modelled from the spec: the synthesized metadata string (spec section
4.3, MetadataOnly): filename, parent-folder tokens, drive label, category
name — never file bytes. -/
def metadataText (name : Segment) (folders : List Segment) (drive : Segment)
    (category : FileCategory) : List Char :=
  name ++ [' '] ++ ((folders.map (fun f => f ++ [' '])).flatten) ++ drive ++
    [' '] ++ categoryName category

/-- The number of data rows kept for spreadsheets (spec section 4.3 keeps
the header plus the first N rows; N is fixed here). -/
def spreadsheetRows : Nat := 10

/-- Header row plus the first `spreadsheetRows` data rows, rendered as
newline-separated text. -/
def spreadsheetText (content : List Char) : List Char :=
  List.intercalate ['\n'] ((content.splitOn '\n').take (1 + spreadsheetRows))

/-- Modelled from the spec: the Content Extractor contract
`extract(path, category, decision, maxChars, maxFileSize)` of section 4.3
(the Rust implementation, `extract_category_content` and
`read_file_content_with_category`, is not under src/). Skip is never
called, modelled as an error; MetadataOnly synthesizes metadata; under
FullContent a file whose size exceeds `maxFileSize` is demoted to the
metadata result instead of being read, and otherwise the category policy
applies. -/
def extract (name : Segment) (folders : List Segment) (drive : Segment)
    (category : FileCategory) (decision : ScanDecision) (content : List Char)
    (fileSize maxChars maxFileSize : Nat) : Except ExtractError ExtractedText :=
  match decision with
  | .skip => .error .fileUnreadable
  | .metadataOnly => .ok ⟨metadataText name folders drive category, false⟩
  | .fullContent =>
    if maxFileSize < fileSize then
      .ok ⟨metadataText name folders drive category, false⟩
    else
      match category with
      | .code => .ok ⟨metadataText name folders drive category, false⟩
      | .document => .ok ⟨truncateChars maxChars content, true⟩
      | .spreadsheet => .ok ⟨truncateChars maxChars (spreadsheetText content), true⟩
      | .media => .ok ⟨metadataText name folders drive category, false⟩
      | .binary => .ok ⟨metadataText name folders drive category, false⟩
      | .archive => .ok ⟨metadataText name folders drive category, false⟩
      | .database => .ok ⟨metadataText name folders drive category, false⟩
      | .config => .ok ⟨truncateChars maxChars content, true⟩
      | .unknown => .ok ⟨truncateChars maxChars content, true⟩

end FileAI

namespace FileAI

/-! ## Helper lemmas -/

/-- `indexOf` is sound: the needle really occurs at the reported index. -/
theorem indexOf_sound (needle hay : List Char) (i : Nat)
    (h : indexOf needle hay = some i) : needle.isPrefixOf (hay.drop i) = true := by
  induction hay generalizing i with
  | nil =>
    simp only [indexOf] at h
    split at h
    · next hp => cases h; rw [List.drop_zero]; exact hp
    · cases h
  | cons c t ih =>
    simp only [indexOf] at h
    split at h
    · next hp => cases h; rw [List.drop_zero]; exact hp
    · cases hm : indexOf needle t with
      | none => rw [hm] at h; cases h
      | some j =>
        rw [hm] at h
        simp only [Option.map_some'] at h
        cases h
        simpa using ih j hm

/-! ## Claim theorems -/

/-- C2: for non-empty content and query, `generateSnippet` returns a window
of the content around the lexical match, or the start of the content when
there is no lexical match: when the lowercased query first occurs in the
lowercased content at index `i`, the result is the substring of `content`
from `max 0 (i - 50)` to `min content.length (i + query.length + 50)`,
prefixed with `"..."` iff the window start is positive and suffixed with
`"..."` iff the window end is below the length; when the query does not
occur, the result is the first 100 characters, suffixed with `"..."` iff
the content is longer than 100 characters; when content or query is
empty the result is empty. -/
theorem generateSnippet_spec (content query : List Char) :
    ((content = [] ∨ query = []) → generateSnippet content query = []) ∧
    (content ≠ [] → query ≠ [] →
      (indexOf (jsToLower query) (jsToLower content) = none →
        generateSnippet content query =
          content.take 100 ++ (if 100 < content.length then dots else [])) ∧
      (∀ i, indexOf (jsToLower query) (jsToLower content) = some i →
        generateSnippet content query =
          (if 0 < i - 50 then dots else []) ++
          jsSubstring content (i - 50)
            (min content.length (i + query.length + 50)) ++
          (if min content.length (i + query.length + 50) < content.length
            then dots else []))) := by
  refine ⟨?_, ?_⟩
  · rintro (hc | hq)
    · simp [generateSnippet, hc]
    · simp [generateSnippet, hq]
  · intro hc hq
    constructor
    · intro hnone
      simp [generateSnippet, hc, hq, hnone, jsSubstring]
    · intro i hi
      simp [generateSnippet, hc, hq, hi]

/-- Witness for `generateSnippet_spec`: evaluated on concrete content and
query, both in the matching and the non-matching branch. -/
theorem generateSnippet_spec_witness :
    generateSnippet ['a', 'B', 'c'] ['b'] = ['a', 'B', 'c'] ∧
    generateSnippet ['a', 'b'] ['z'] = ['a', 'b'] := by
  constructor
  · have h := (generateSnippet_spec ['a', 'B', 'c'] ['b']).2
      (by decide) (by decide)
    have h2 := h.2 1 (by decide)
    rw [h2]; decide
  · have h := (generateSnippet_spec ['a', 'b'] ['z']).2
      (by decide) (by decide)
    have h1 := h.1 (by decide)
    rw [h1]; decide

/-- C1 counterexample: a whitespace-only query trims to empty, yet
`Search.handleSearch` does invoke `'search_files'` — its guard is
`if (!query) return;`, which only the exactly-empty string passes — so the
claim that both entry points return before any backend invocation fails
at the query `' '`. -/
theorem handleSearch_whitespace_invokes :
    (jsTrim [' ']).isEmpty = true ∧
    (handleSearch [' '] ⟨[], none⟩ (Except.ok [])).1 = true := by decide

/-- C1 (amended): for every query whose whitespace-trimmed form is empty,
`useSearch.search` sets `results` to `[]` and returns without invoking
`'search_indexed_files'`; `Search.handleSearch` returns without invoking
`'search_files'` when the query is exactly the empty string (a
whitespace-only query does reach its invocation). -/
theorem empty_query_no_invoke (query : List Char) (s : SearchState)
    (backend : Except JsError (List BackendSearchResult))
    (h : (jsTrim query).isEmpty = true) :
    (search query s backend).1 = false ∧
    (search query s backend).2.results = [] ∧
    (∀ (s2 : HandleSearchState) (b2 : Except JsError (List (List Char × ℚ))),
      (handleSearch [] s2 b2).1 = false ∧ (handleSearch [] s2 b2).2 = s2) := by
  refine ⟨?_, ?_, ?_⟩
  · simp [search, h]
  · simp [search, h]
  · intro s2 b2
    constructor <;> simp [handleSearch]

/-- Witness for `empty_query_no_invoke` at the empty query. -/
theorem empty_query_no_invoke_witness :
    (search [] ⟨[], none⟩ (Except.ok [])).1 = false ∧
    (search [] ⟨[], none⟩ (Except.ok [])).2.results = [] ∧
    (handleSearch [] ⟨[], none⟩ (Except.ok [])).1 = false := by
  have h := empty_query_no_invoke [] ⟨[], none⟩ (Except.ok []) (by decide)
  exact ⟨h.1, h.2.1, (h.2.2 ⟨[], none⟩ (Except.ok [])).1⟩

/-- C8: for a query that does not trim to empty, a rejected
`'search_indexed_files'` invocation terminates the search with `error` set
to a message and `results` empty — results of an earlier successful search
never survive a failed one — while a successful invocation leaves `error`
null and produces exactly one transformed entry per backend result,
preserving order and ids, each entry's `type` being one of `'file'`,
`'folder'`, `'content'`. -/
theorem search_outcome_spec (query : List Char) (s : SearchState)
    (h : (jsTrim query).isEmpty = false) :
    (∀ e, (search query s (Except.error e)).2.error = some (jsErrorMessage e) ∧
      (search query s (Except.error e)).2.results = []) ∧
    (∀ rs, (search query s (Except.ok rs)).2.error = none ∧
      ((search query s (Except.ok rs)).2.results).length = rs.length ∧
      ((search query s (Except.ok rs)).2.results).map (fun r => r.id) =
        rs.map (fun r => r.id) ∧
      ∀ r ∈ (search query s (Except.ok rs)).2.results,
        r.type = fileStr ∨ r.type = folderStr ∨ r.type = contentStr) := by
  constructor
  · intro e
    constructor <;> simp [search, h]
  · intro rs
    have hres : (search query s (Except.ok rs)).2.results =
        rs.map (transformResult query) := by
      simp [search, h]
    refine ⟨?_, ?_, ?_, ?_⟩
    · simp [search, h]
    · rw [hres, List.length_map]
    · rw [hres, List.map_map]
      rfl
    · intro r hr
      rw [hres] at hr
      rcases List.mem_map.mp hr with ⟨r0, _, rfl⟩
      have ht : (transformResult query r0).type = resultTypeToType r0.result_type := rfl
      rw [ht]
      unfold resultTypeToType
      split
      · exact Or.inr (Or.inl rfl)
      · split
        · exact Or.inr (Or.inr rfl)
        · exact Or.inl rfl

/-- Witness for `search_outcome_spec`: a failed and a successful search at
the one-letter query. -/
theorem search_outcome_spec_witness :
    (search ['a'] ⟨[], none⟩ (Except.error JsError.nonError)).2.error =
      some (jsErrorMessage JsError.nonError) ∧
    (search ['a'] ⟨[], none⟩ (Except.error JsError.nonError)).2.results = [] ∧
    (search ['a'] ⟨[], none⟩ (Except.ok [])).2.error = none := by
  have h := search_outcome_spec ['a'] ⟨[], none⟩ (by decide)
  exact ⟨(h.1 JsError.nonError).1, (h.1 JsError.nonError).2, (h.2 []).1⟩

/-- C6: the completion percentage displayed for a progress event is
`Math.round((current / total) * 100)` only when the total is positive and
is 0 whenever the total is 0 (unknown), so rendering a progress event
never divides by a zero total. -/
theorem displayPercent_spec (p : ScanProgress) :
    (p.total = 0 → displayPercent p = 0) ∧
    (0 < p.total →
      displayPercent p = jsRound (((p.current : ℚ) / (p.total : ℚ)) * 100)) := by
  constructor
  · intro h
    simp [displayPercent, h]
  · intro h
    simp [displayPercent, h]

/-- Witness for `displayPercent_spec`: a zero total displays 0, one half
displays 50. -/
theorem displayPercent_spec_witness :
    displayPercent ⟨7, 0, [], []⟩ = 0 ∧ displayPercent ⟨1, 2, [], []⟩ = 50 := by
  constructor
  · exact (displayPercent_spec ⟨7, 0, [], []⟩).1 rfl
  · have h := (displayPercent_spec ⟨1, 2, [], []⟩).2 (by decide)
    rw [h]
    norm_num [jsRound]

/-- C7: with indexing in progress, a progress event clears the indexing
state iff its stage is `'complete'` (and the complete event also resets
the progress), a rejected scan invocation clears it, and a successful
invocation — hence also a progress event of any other stage — leaves it
set. -/
theorem indexing_cleared_only_on_complete (s : ScanUIState) (p : ScanProgress)
    (h : s.indexing = true) :
    ((onProgress s p).indexing = false ↔ p.stage = completeStage) ∧
    (p.stage = completeStage → (onProgress s p).progress = none) ∧
    (∀ e, (handleIndexResult s (Except.error e)).indexing = false) ∧
    (∀ n, (handleIndexResult s (Except.ok n)).indexing = true) := by
  refine ⟨?_, ?_, ?_, ?_⟩
  · by_cases hs : p.stage = completeStage
    · simp [onProgress, hs]
    · simp [onProgress, hs, h]
  · intro hs
    simp [onProgress, hs]
  · intro e
    simp [handleIndexResult]
  · intro n
    simp [handleIndexResult]

/-- Witness for `indexing_cleared_only_on_complete`: the complete event
clears indexing, and a rejected invocation clears it. -/
theorem indexing_cleared_only_on_complete_witness :
    (onProgress ⟨[], false, true, none, none⟩ ⟨0, 0, [], completeStage⟩).indexing
      = false ∧
    (handleIndexResult ⟨[], false, true, none, none⟩
      (Except.error JsError.nonError)).indexing = false := by
  have h := indexing_cleared_only_on_complete ⟨[], false, true, none, none⟩
    ⟨0, 0, [], completeStage⟩ rfl
  exact ⟨h.1.mpr rfl, h.2.2.1 JsError.nonError⟩

/-- C9: `addRule` is a no-op on input that trims to empty (no backend
invocation, rules and input unchanged); on non-empty input it invokes the
backend add command and changes the local state only when that command
succeeds — on success the cleaned value (extensions lose exactly one
leading dot) is appended and the input cleared, on failure rules and
input are unchanged. -/
theorem addRule_spec (isExt : Bool) (rules : List (List Char))
    (input : List Char) :
    ((jsTrim input).isEmpty = true →
      ∀ ok, addRule isExt rules input ok = ⟨false, rules, input⟩) ∧
    ((jsTrim input).isEmpty = false →
      addRule isExt rules input false = ⟨true, rules, input⟩ ∧
      addRule isExt rules input true =
        ⟨true,
          rules ++
            [if isExt then stripLeadingDot (jsTrim input) else jsTrim input],
          []⟩) ∧
    (∀ cs, stripLeadingDot ('.' :: cs) = cs) ∧
    (∀ c cs, c ≠ '.' → stripLeadingDot (c :: cs) = c :: cs) := by
  refine ⟨?_, ?_, ?_, ?_⟩
  · intro h ok
    simp [addRule, h]
  · intro h
    constructor <;> simp [addRule, h]
  · intro cs
    simp [stripLeadingDot]
  · intro c cs hc
    simp [stripLeadingDot, hc]

/-- Witness for `addRule_spec`: whitespace input is a no-op, and the
extension value `.md` is added as `md`. -/
theorem addRule_spec_witness :
    addRule true [] [' '] true = ⟨false, [], [' ']⟩ ∧
    addRule true [] ['.', 'm', 'd'] true = ⟨true, [['m', 'd']], []⟩ := by
  have h1 := (addRule_spec true [] [' ']).1 (by decide) true
  have h2 := ((addRule_spec true [] ['.', 'm', 'd']).2.1 (by decide)).2
  refine ⟨h1, ?_⟩
  rw [h2]
  decide

/-- C3 counterexample: under the rule order of the spec (section 4.2) the
excluded-filenames rule fires before the folder rule, so a file that is
under an included path and inside an excluded folder but whose exact name
is in the excluded-filenames set is decided Skip, not MetadataOnly. -/
theorem excluded_filename_skips_counterexample :
    underAny (ScanRuleSet.mk [[['p']]] [] [] [['n']] [] [] [['s']]).includedPaths
      [['p'], ['n'], ['s']] = true ∧
    inExcludedFolder (ScanRuleSet.mk [[['p']]] [] [] [['n']] [] [] [['s']])
      [['p'], ['n'], ['s']] = true ∧
    decideFile [['p'], ['n'], ['s']] ['t'] .phase1
      (ScanRuleSet.mk [[['p']]] [] [] [['n']] [] [] [['s']]) = .skip := by decide

/-- C3 (amended): for every file under a configured included path and
inside an excluded folder or under an excluded path, whose exact file
name is not in the excluded-filenames set, the Rule Engine decides
MetadataOnly in every phase — never Skip and never FullContent. -/
theorem excluded_under_included_metadataOnly (path : FsPath) (ext : Segment)
    (phase : ScanPhase) (rs : ScanRuleSet)
    (hinc : underAny rs.includedPaths path = true)
    (hexc : inExcludedFolder rs path = true ∨
      underAny rs.excludedPaths path = true)
    (hname : rs.excludedFilenames.contains (fileName path) = false) :
    decideFile path ext phase rs = .metadataOnly := by
  have hor : (inExcludedFolder rs path || underAny rs.excludedPaths path)
      = true := by
    rcases hexc with h1 | h1 <;> simp [h1]
  have hname2 : fileName path ∉ rs.excludedFilenames := by
    simpa using hname
  simp [decideFile, hname2, hor, hinc]

/-- Witness for `excluded_under_included_metadataOnly`: a file inside an
excluded folder nested in an included path. -/
theorem excluded_under_included_metadataOnly_witness :
    decideFile [['p'], ['n'], ['f']] ['t'] .phase1
      (ScanRuleSet.mk [[['p']]] [] [] [['n']] [] [] []) = .metadataOnly :=
  excluded_under_included_metadataOnly [['p'], ['n'], ['f']] ['t'] .phase1
    (ScanRuleSet.mk [[['p']]] [] [] [['n']] [] [] [])
    (by decide) (Or.inl (by decide)) (by decide)

/-- C4: for every pair of candidate lists and every file id present in
both, the fused relevance score assigned to that file is at least the
maximum of its vector score and its text score (monotonic fusion), with
no restriction on the scores' signs — negative cosine similarities
included. -/
theorem fuseScore_monotone (vec txt : List (Nat × ℚ)) (id : Nat) (v t : ℚ)
    (hv : lookupScore vec id = some v) (ht : lookupScore txt id = some t) :
    ∃ f, fuseScore vec txt id = some f ∧ max v t ≤ f := by
  refine ⟨max (v + t) (max v t), ?_, le_max_right _ _⟩
  simp [fuseScore, hv, ht]

/-- Witness for `fuseScore_monotone` on one-element candidate lists with
a negative vector score. -/
theorem fuseScore_monotone_witness :
    ∃ f, fuseScore [(1, -1)] [(1, 0)] 1 = some f ∧ max (-1 : ℚ) 0 ≤ f :=
  fuseScore_monotone [(1, -1)] [(1, 0)] 1 (-1) 0 (by decide) (by decide)

/-- C5: truncation keeps at most `maxChars` characters and cuts on a
character boundary — the UTF-8 bytes of the truncated text followed by
the bytes of the removed suffix re-form the original byte sequence
exactly, so no multi-byte encoding is ever split — and a file whose size
exceeds `maxFileSize` never makes extraction fail: under a FullContent
decision it returns the metadata-only result. -/
theorem extract_truncation_safe (name : Segment) (folders : List Segment)
    (drive : Segment) (category : FileCategory) (content : List Char)
    (fileSize maxChars maxFileSize : Nat) (hbig : maxFileSize < fileSize) :
    (truncateChars maxChars content).length ≤ maxChars ∧
    utf8Bytes (truncateChars maxChars content) ++
      utf8Bytes (content.drop maxChars) = utf8Bytes content ∧
    extract name folders drive category .fullContent content fileSize maxChars
      maxFileSize = .ok ⟨metadataText name folders drive category, false⟩ := by
  refine ⟨?_, ?_, ?_⟩
  · simp only [truncateChars, List.length_take]
    exact min_le_left _ _
  · unfold utf8Bytes truncateChars
    rw [← List.flatten_append, ← List.map_append, List.take_append_drop]
  · simp [extract, hbig]

/-- Witness for `extract_truncation_safe`: a two-character document with
size 2 against a one-byte limit. -/
theorem extract_truncation_safe_witness :
    (truncateChars 1 ['x', 'y']).length ≤ 1 ∧
    extract ['a'] [] ['c'] FileCategory.document .fullContent ['x', 'y'] 2 1 1 =
      .ok ⟨metadataText ['a'] [] ['c'] FileCategory.document, false⟩ := by
  have h := extract_truncation_safe ['a'] [] ['c'] FileCategory.document
    ['x', 'y'] 2 1 1 (by decide)
  exact ⟨h.1, h.2.2⟩

/-- The modifier test `flag ? event.flag : !event.flag` passes iff the
event's state equals the configured boolean. -/
theorem modifier_check (b x : Bool) : (if b then x else !x) = true ↔ x = b := by
  cases b <;> cases x <;> simp

/-- C10: with the hook enabled, the keydown callback fires iff the event
key equals the configured key case-insensitively and each of ctrl, shift
and alt equals its configured boolean — in particular a shortcut
configured without a modifier does not fire while that modifier is held
down. -/
theorem shortcutFires_iff (cfg : ShortcutConfig) (ev : KeyEvent)
    (h : cfg.enabled = true) :
    shortcutFires cfg ev = true ↔
      (jsToLower ev.key = jsToLower cfg.key ∧ ev.ctrlKey = cfg.ctrlKey ∧
        ev.shiftKey = cfg.shiftKey ∧ ev.altKey = cfg.altKey) := by
  simp only [shortcutFires, h, Bool.true_and, Bool.and_eq_true, beq_iff_eq,
    modifier_check]
  tauto

/-- Witness for `shortcutFires_iff`: Ctrl+Shift+P fires on a capital P
event with exactly those modifiers. -/
theorem shortcutFires_iff_witness :
    shortcutFires ⟨['p'], true, true, false, true⟩ ⟨['P'], true, true, false⟩
      = true :=
  (shortcutFires_iff ⟨['p'], true, true, false, true⟩
    ⟨['P'], true, true, false⟩ rfl).mpr ⟨by decide, rfl, rfl, rfl⟩

end FileAI
